import Mathlib

/-!
# Transaction-scoping ledger adapter

Shallow embedding of `openmeter/billing/ledger/adapter/adapter.go`.

Go pointers and interface values are nullable, so they are `Option`s here
(`none` is Go `nil`).  Adapter objects live on an explicit heap (`World.heap`);
a `*adapter` is an index into it and `&adapter{...}` appends a fresh object.
A Go panic (nil-pointer dereference) is the result `none` of an operation.

The packages `openmeter/ent/db` (`entdb`) and `pkg/framework/entutils` are outside this
development.  The `entdb` entry points the adapter calls are the fields of `Entdb`, and the
adapter is embedded over an arbitrary `Entdb`; every call into it is recorded in
`World.calls`.  What the design document says of the storage engine and of the
Transaction Driver is modelled in a separate section, as one instance of `Entdb`.
-/

namespace OpenMeter

/-! ## Go errors -/

/-- Go `error` values: `errors.New text`, and `fmt.Errorf (lead ++ "%w") err`. -/
inductive GoError where
  | errorsNew (text : String)
  | errorfW (lead : String) (err : GoError)
deriving DecidableEq, Repr

/-- The `Error()` method: the message of an error. -/
def GoError.Error : GoError → String
  | .errorsNew text => text
  | .errorfW lead err => lead ++ err.Error

/-- The function `errors.Unwrap`: the error wrapped with `%w`, if any. -/
def GoError.Unwrap : GoError → Option GoError
  | .errorsNew _ => none
  | .errorfW _ err => some err

/-! ## `database/sql` -/

/-- The struct `sql.TxOptions`; `Isolation` is an `sql.IsolationLevel`, whose zero value is
`sql.LevelDefault`. -/
structure TxOptions where
  Isolation : Nat
  ReadOnly : Bool
deriving DecidableEq, Repr

/-- The constant `sql.LevelDefault`. -/
def LevelDefault : Nat := 0

/-! ## Collaborators: `entdb` and `entutils` -/

/-- The four results of `(*entdb.Client).HijackTx`. -/
structure HijackRet (Ctx RawEntConfig Drv : Type) where
  txCtx : Option Ctx
  rawConfig : Option RawEntConfig
  eDriver : Option Drv
  err : Option GoError

/-- The entry points of package `entdb` used by the adapter, taken as parameters.
`HijackTx` is the begin-session operation and acts on the storage state `Store`.
`NewTxClientFromRawConfig` and `TxClient` (the method `(*entdb.Tx).Client`) only construct
objects, as the design says of `clientFromSession`. -/
structure Entdb (Client EntTx Ctx RawEntConfig Drv Store : Type) where
  HijackTx : Option Client → Option Ctx → TxOptions → Store →
    HijackRet Ctx RawEntConfig Drv × Store
  NewTxClientFromRawConfig : Option Ctx → RawEntConfig → Option EntTx
  TxClient : Option EntTx → Option Client

/-- A recorded call into package `entdb`. -/
inductive Call (Client EntTx Ctx RawEntConfig : Type) where
  | HijackTx (c : Option Client) (ctx : Option Ctx) (opts : TxOptions)
  | NewTxClientFromRawConfig (ctx : Option Ctx) (cfg : RawEntConfig)
  | TxClient (tx : Option EntTx)
deriving DecidableEq, Repr

/-- Whether a recorded call is the begin-session operation. -/
def Call.isHijackTx {Client EntTx Ctx RawEntConfig : Type} :
    Call Client EntTx Ctx RawEntConfig → Bool
  | .HijackTx _ _ _ => true
  | _ => false

/-- Modelled from the spec: the type `entutils.TxDriver`, whose declaration is outside this
development.  A Transaction Driver wraps one raw session handle: the session configuration
(a `*RawEntConfig`) and the commit/rollback capability (a `transaction.Driver`). -/
structure TxDriver (RawEntConfig Drv : Type) where
  driver : Option Drv
  cfg : Option RawEntConfig
deriving DecidableEq, Repr

/-- Modelled from the spec: the constructor `entutils.NewTxDriver`, outside this
development; it wraps the driver and the configuration. -/
def NewTxDriver {RawEntConfig Drv : Type} (driver : Option Drv) (cfg : Option RawEntConfig) :
    TxDriver RawEntConfig Drv :=
  { driver := driver, cfg := cfg }

/-- Modelled from the spec: the method `(*entutils.TxDriver).GetConfig`, outside this
development: `getConfig() -> SessionConfig`, the configuration the driver wraps. -/
def TxDriver.GetConfig {RawEntConfig Drv : Type} (t : TxDriver RawEntConfig Drv) :
    Option RawEntConfig :=
  t.cfg

/-! ## The adapter -/

/-- The struct `Config`. -/
structure Config (Client : Type) where
  Client : Option Client
deriving DecidableEq, Repr

/-- The struct `adapter`. -/
structure adapter (Client : Type) where
  db : Option Client
deriving DecidableEq, Repr

/-- A `*adapter`: an index into the heap. -/
abbrev Ptr := Nat

/-- The program state: storage state, adapter heap, and the log of calls into `entdb`. -/
structure World (Client EntTx Ctx RawEntConfig Store : Type) where
  store : Store
  heap : List (adapter Client)
  calls : List (Call Client EntTx Ctx RawEntConfig)

section Embedding

variable {Client EntTx Ctx RawEntConfig Drv Store : Type}

/-- The object a pointer refers to, `none` for a pointer to no live adapter. -/
def World.deref (w : World Client EntTx Ctx RawEntConfig Store) (a : Ptr) :
    Option (adapter Client) :=
  w.heap[a]?

/-- The expression `&adapter{...}`: a fresh object at the end of the heap. -/
def World.alloc (w : World Client EntTx Ctx RawEntConfig Store) (obj : adapter Client) :
    Ptr × World Client EntTx Ctx RawEntConfig Store :=
  (w.heap.length, { w with heap := w.heap ++ [obj] })

/-- The method `Config.Validate`. -/
def Config.Validate (c : Config Client) : Option GoError :=
  match c.Client with
  | none => some (GoError.errorsNew "client is required")
  | some _ => none

/-- The function `New`: the returned `ledger.Adapter` and `error`. -/
def New (config : Config Client) (w : World Client EntTx Ctx RawEntConfig Store) :
    (Option Ptr × Option GoError) × World Client EntTx Ctx RawEntConfig Store :=
  match config.Validate with
  | some err => ((none, some err), w)
  | none =>
    let (p, w') := w.alloc { db := config.Client }
    ((some p, none), w')

/-- The three results of `adapter.Tx`. -/
structure TxRet (Ctx RawEntConfig Drv : Type) where
  ctx : Option Ctx
  driver : Option (TxDriver RawEntConfig Drv)
  err : Option GoError

/-- The options literal `&sql.TxOptions{ReadOnly: false}`. -/
def txOptions : TxOptions :=
  { Isolation := LevelDefault, ReadOnly := false }

/-- The method `adapter.Tx`. -/
def adapter.Tx (E : Entdb Client EntTx Ctx RawEntConfig Drv Store) (a : Ptr)
    (ctx : Option Ctx) (w : World Client EntTx Ctx RawEntConfig Store) :
    Option (TxRet Ctx RawEntConfig Drv × World Client EntTx Ctx RawEntConfig Store) :=
  match w.deref a with
  | none => none
  | some obj =>
    let r := E.HijackTx obj.db ctx txOptions w.store
    let w' : World Client EntTx Ctx RawEntConfig Store :=
      { w with store := r.2, calls := w.calls ++ [Call.HijackTx obj.db ctx txOptions] }
    match r.1.err with
    | some err =>
      some ({ ctx := none, driver := none,
              err := some (GoError.errorfW "failed to hijack transaction: " err) }, w')
    | none =>
      some ({ ctx := r.1.txCtx, driver := some (NewTxDriver r.1.eDriver r.1.rawConfig),
              err := none }, w')

/-- The method `adapter.WithTx`.  The receiver is not dereferenced; `tx.GetConfig()` needs
a non-nil `tx` and `*tx.GetConfig()` a non-nil configuration. -/
def adapter.WithTx (E : Entdb Client EntTx Ctx RawEntConfig Drv Store) (_a : Ptr)
    (ctx : Option Ctx) (tx : Option (TxDriver RawEntConfig Drv))
    (w : World Client EntTx Ctx RawEntConfig Store) :
    Option (Ptr × World Client EntTx Ctx RawEntConfig Store) :=
  match tx with
  | none => none
  | some t =>
    match t.GetConfig with
    | none => none
    | some cfg =>
      let txDb := E.NewTxClientFromRawConfig ctx cfg
      let w' : World Client EntTx Ctx RawEntConfig Store :=
        { w with calls := w.calls ++ [Call.NewTxClientFromRawConfig ctx cfg, Call.TxClient txDb] }
      some (w'.alloc { db := E.TxClient txDb })

/-- The method `adapter.Self`. -/
def adapter.Self (a : Ptr) (w : World Client EntTx Ctx RawEntConfig Store) :
    Ptr × World Client EntTx Ctx RawEntConfig Store :=
  (a, w)

end Embedding

/-! ## A storage engine after the design document

The storage engine, the sessions it hands out, and the commit and rollback of a
Transaction Driver are outside this development.  This section models them from the
design document, as one instance of `Entdb`. -/

/-- Modelled from the spec: the lifecycle states of a Transaction Driver,
`Open → Committed | RolledBack`. -/
inductive DriverState where
  | Open
  | Committed
  | RolledBack
deriving DecidableEq, Repr

/-- Modelled from the spec: the error classes a Transaction Driver reports. -/
inductive DriverError where
  | CommitError
  | RollbackError
  | InvalidDriverStateError
deriving DecidableEq, Repr

/-- A persisted record. -/
abbrev Record := Nat

/-- The identity of a session: its position in `Storage.sessions`. -/
abbrev SessionId := Nat

/-- Modelled from the spec: a session, one live transaction on one connection, with its
isolation/read-only flags, its in-progress marker (`state`), whether the connection was
dropped (`invalidated`), and the writes issued in it so far. -/
structure Session where
  opts : TxOptions
  state : DriverState
  invalidated : Bool
  writes : List Record
deriving DecidableEq, Repr

/-- Modelled from the spec: the storage engine: the persisted records, every session
handed out so far, and the number of sessions the pool can hold open. -/
structure Storage where
  persisted : List Record
  sessions : List Session
  poolSize : Nat
deriving DecidableEq, Repr

/-- Modelled from the spec: a storage client is either the default pooled client or one
rebuilt from a raw session handle. -/
inductive StorageClient where
  | pooled
  | session (id : SessionId)
deriving DecidableEq, Repr

/-- Modelled from the spec: the Transaction Context Carrier, a reference to the active
transaction. -/
structure Carrier where
  active : SessionId
deriving DecidableEq, Repr

/-- Modelled from the spec: the open-session count of the storage client. -/
def Storage.openSessions (s : Storage) : Nat :=
  (s.sessions.filter (fun x => x.state = DriverState.Open)).length

/-- Modelled from the spec: `beginSession(options) -> (RawSessionHandle, error)`.  A session
is allocated unless the pool is exhausted or there is no client to connect through; a
failed call leaves the storage as it was. -/
def Storage.HijackTx (c : Option StorageClient) (_ctx : Option Carrier) (opts : TxOptions)
    (s : Storage) : HijackRet Carrier SessionId SessionId × Storage :=
  match c with
  | none =>
    ({ txCtx := none, rawConfig := none, eDriver := none,
       err := some (GoError.errorsNew "connection failure") }, s)
  | some _ =>
    if s.openSessions < s.poolSize then
      let id := s.sessions.length
      ({ txCtx := some { active := id }, rawConfig := some id, eDriver := some id, err := none },
       { s with sessions := s.sessions ++
          [{ opts := opts, state := DriverState.Open, invalidated := false, writes := [] }] })
    else
      ({ txCtx := none, rawConfig := none, eDriver := none,
         err := some (GoError.errorsNew "pool exhausted") }, s)

/-- Modelled from the spec: the instance of `Entdb` over `Storage`;
`clientFromSession(config) -> StorageClient` builds the client scoped to the session. -/
def specEntdb : Entdb StorageClient SessionId Carrier SessionId SessionId Storage where
  HijackTx := Storage.HijackTx
  NewTxClientFromRawConfig := fun _ cfg => some cfg
  TxClient := fun tx => tx.map StorageClient.session

/-- The world over the modelled storage engine. -/
abbrev SpecWorld := World StorageClient SessionId Carrier SessionId Storage

/-- Replace the session `id`. -/
def Storage.setSession (s : Storage) (id : SessionId) (x : Session) : Storage :=
  { s with sessions := s.sessions.set id x }

/-- Modelled from the spec: `Open --commit--> Committed` persists all writes of the session;
on an invalidated session it fails with `CommitError` and the transaction is rolled back;
on a finished driver it is an `InvalidDriverStateError`. -/
def Storage.commit (id : SessionId) (s : Storage) : Option DriverError × Storage :=
  match s.sessions[id]? with
  | none => (some DriverError.InvalidDriverStateError, s)
  | some x =>
    match x.state with
    | DriverState.Open =>
      if x.invalidated then
        (some DriverError.CommitError,
         s.setSession id { x with state := DriverState.RolledBack, writes := [] })
      else
        (none,
         { (s.setSession id { x with state := DriverState.Committed, writes := [] }) with
           persisted := s.persisted ++ x.writes })
    | _ => (some DriverError.InvalidDriverStateError, s)

/-- Modelled from the spec: `Open --rollback--> RolledBack` discards all writes of the
session; on a finished driver it is an `InvalidDriverStateError`. -/
def Storage.rollback (id : SessionId) (s : Storage) : Option DriverError × Storage :=
  match s.sessions[id]? with
  | none => (some DriverError.InvalidDriverStateError, s)
  | some x =>
    match x.state with
    | DriverState.Open =>
      (none, s.setSession id { x with state := DriverState.RolledBack, writes := [] })
    | _ => (some DriverError.InvalidDriverStateError, s)

/-- Modelled from the spec: the driver's `commit() -> error`, through the wrapped
capability. -/
def TxDriver.Commit (t : TxDriver SessionId SessionId) (s : Storage) :
    Option (Option DriverError × Storage) :=
  match t.driver with
  | none => none
  | some id => some (s.commit id)

/-- Modelled from the spec: the driver's `rollback() -> error`, through the wrapped
capability. -/
def TxDriver.Rollback (t : TxDriver SessionId SessionId) (s : Storage) :
    Option (Option DriverError × Storage) :=
  match t.driver with
  | none => none
  | some id => some (s.rollback id)

/-- Modelled from the spec: the lifecycle state of a driver, read off its session. -/
def TxDriver.state (t : TxDriver SessionId SessionId) (s : Storage) : Option DriverState :=
  match t.driver with
  | none => none
  | some id => (s.sessions[id]?).map Session.state

/-- Modelled from the spec: a write issued through a storage client.  The pooled client
persists at once; a session client records the write in its session, which must be open,
live and read-write.  The result tells whether the write was accepted. -/
def Storage.write (c : Option StorageClient) (r : Record) (s : Storage) : Bool × Storage :=
  match c with
  | none => (false, s)
  | some StorageClient.pooled => (true, { s with persisted := s.persisted ++ [r] })
  | some (StorageClient.session id) =>
    match s.sessions[id]? with
    | none => (false, s)
    | some x =>
      if x.state = DriverState.Open ∧ x.invalidated = false ∧ x.opts.ReadOnly = false then
        (true, s.setSession id { x with writes := x.writes ++ [r] })
      else
        (false, s)

/-- Modelled from the spec: the records a storage client reads: the persisted ones, and
within an open session also the writes of that session. -/
def Storage.read (c : Option StorageClient) (s : Storage) : List Record :=
  match c with
  | none => []
  | some StorageClient.pooled => s.persisted
  | some (StorageClient.session id) =>
    match s.sessions[id]? with
    | none => []
    | some x => if x.state = DriverState.Open then s.persisted ++ x.writes else []

/-- Modelled from the spec: a write issued through an adapter goes to its storage client. -/
def adapter.write (a : Ptr) (r : Record) (w : SpecWorld) : Option (Bool × SpecWorld) :=
  match w.deref a with
  | none => none
  | some obj =>
    let res := w.store.write obj.db r
    some (res.1, { w with store := res.2 })

/-- Modelled from the spec: a read issued through an adapter goes to its storage client. -/
def adapter.read (a : Ptr) (w : SpecWorld) : Option (List Record) :=
  match w.deref a with
  | none => none
  | some obj => some (w.store.read obj.db)

/-- A step of a transactional workflow on the driver `d`: obtain one more sibling adapter
by `WithTx` (through any receiver, with any context), or issue a write through the `k`-th
sibling obtained so far. -/
inductive SiblingStep where
  | rebind (receiver : Ptr) (ctx : Option Carrier)
  | write (k : Nat) (r : Record)
deriving DecidableEq, Repr

/-- Run one step on the world and the list of siblings obtained so far; `none` when the
step cannot be carried out (no such sibling, a panic, or a refused write). -/
def SiblingStep.run (d : TxDriver SessionId SessionId) :
    SiblingStep → SpecWorld × List Ptr → Option (SpecWorld × List Ptr)
  | .rebind receiver ctx, (w, sibs) =>
    match adapter.WithTx specEntdb receiver ctx (some d) w with
    | none => none
    | some (p, w') => some (w', sibs ++ [p])
  | .write k r, (w, sibs) =>
    match sibs[k]? with
    | none => none
    | some p =>
      match adapter.write p r w with
      | some (true, w') => some (w', sibs)
      | _ => none

/-- Run a sequence of steps. -/
def runSiblings (d : TxDriver SessionId SessionId) :
    List SiblingStep → SpecWorld × List Ptr → Option (SpecWorld × List Ptr)
  | [], st => some st
  | step :: rest, st =>
    match step.run d st with
    | none => none
    | some st' => runSiblings d rest st'

/-- Every write of the sequence goes through a sibling obtained earlier, `n` siblings
being at hand at the start. -/
def wellFormed : List SiblingStep → Nat → Bool
  | [], _ => true
  | .rebind _ _ :: rest, n => wellFormed rest (n + 1)
  | .write k _ :: rest, n => decide (k < n) && wellFormed rest n

/-- The records written by a sequence of steps, in order. -/
def writesOf : List SiblingStep → List Record
  | [] => []
  | .rebind _ _ :: rest => writesOf rest
  | .write _ r :: rest => r :: writesOf rest

/-- An open, live session with the options of `Tx`, holding the writes `ws`. -/
def Session.opened (ws : List Record) : Session :=
  { opts := txOptions, state := DriverState.Open, invalidated := false, writes := ws }

/-- The session `id` is open, live and read-write, holds the writes `ws`, and the
persisted records are `base`. -/
def InSession (id : SessionId) (base ws : List Record) (s : Storage) : Prop :=
  s.persisted = base ∧ s.sessions[id]? = some (Session.opened ws)

/-- Modelled from the spec: the connection of a session drops; the session is
invalidated. -/
def Storage.dropConnection (id : SessionId) (s : Storage) : Storage :=
  match s.sessions[id]? with
  | none => s
  | some x => s.setSession id { x with invalidated := true }

/-- An operation on the modelled storage engine. -/
inductive StorageOp where
  | hijack (c : Option StorageClient) (ctx : Option Carrier) (opts : TxOptions)
  | commit (id : SessionId)
  | rollback (id : SessionId)
  | write (c : Option StorageClient) (r : Record)
  | dropConnection (id : SessionId)
deriving DecidableEq, Repr

/-- The storage after an operation. -/
def StorageOp.apply : StorageOp → Storage → Storage
  | .hijack c ctx opts, s => (s.HijackTx c ctx opts).2
  | .commit id, s => (s.commit id).2
  | .rollback id, s => (s.rollback id).2
  | .write c r, s => (s.write c r).2
  | .dropConnection id, s => s.dropConnection id

/-- The storage after a sequence of operations. -/
def StorageOp.applyAll : List StorageOp → Storage → Storage
  | [], s => s
  | op :: ops, s => StorageOp.applyAll ops (op.apply s)

/-- A world just after start-up: a storage holding the record `7` with a pool of `n`
sessions, and one default adapter made by `New` over the pooled client. -/
def bootWorld (n : Nat) : SpecWorld :=
  (New { Client := some StorageClient.pooled }
    { store := { persisted := [7], sessions := [], poolSize := n }, heap := [], calls := [] }).2

/-- The driver of the session `id` of the modelled storage engine. -/
def sessionDriver (id : SessionId) : TxDriver SessionId SessionId :=
  NewTxDriver (some id) (some id)

/-- The world `bootWorld 1` after a successful `Tx` on its adapter. -/
def openedWorld : SpecWorld :=
  { store :=
      { persisted := [7],
        sessions :=
          [{ opts := txOptions, state := DriverState.Open, invalidated := false, writes := [] }],
        poolSize := 1 },
    heap := [{ db := some StorageClient.pooled }],
    calls := [Call.HijackTx (some StorageClient.pooled) none txOptions] }

/-- The results of that `Tx`. -/
def openedRet : TxRet Carrier SessionId SessionId :=
  { ctx := some { active := 0 }, driver := some (sessionDriver 0), err := none }

/-- A workflow on one driver: two siblings, obtained through different receivers, and
three writes through them. -/
def workflow : List SiblingStep :=
  [SiblingStep.rebind 0 none, SiblingStep.write 0 11,
   SiblingStep.rebind 5 (some { active := 0 }), SiblingStep.write 1 12, SiblingStep.write 0 13]

/-- The invariant of a run: the session is as `InSession` says and every sibling at
hand is a live adapter bound to the session. -/
def RunInv (id : SessionId) (base ws : List Record) (st : SpecWorld × List Ptr) : Prop :=
  InSession id base ws st.1.store ∧
  ∀ p ∈ st.2, st.1.deref p = some { db := some (StorageClient.session id) }

/-! ## Properties of the adapter, for every storage client -/

section AdapterTheorems

variable {Client EntTx Ctx RawEntConfig Drv Store : Type}

theorem deref_alloc_old (w : World Client EntTx Ctx RawEntConfig Store) (o obj : adapter Client)
    (b : Ptr) (hb : w.deref b = some o) : (w.alloc obj).2.deref b = some o := by
  unfold World.deref at hb
  have hlt : b < w.heap.length := by
    rcases Nat.lt_or_ge b w.heap.length with h | h
    · exact h
    · rw [List.getElem?_eq_none h] at hb
      cases hb
  simp only [World.alloc, World.deref]
  rw [List.getElem?_append_left hlt]
  exact hb

theorem deref_alloc_new (w : World Client EntTx Ctx RawEntConfig Store) (obj : adapter Client) :
    (w.alloc obj).2.deref (w.alloc obj).1 = some obj := by
  simp [World.alloc, World.deref]

theorem deref_lt (w : World Client EntTx Ctx RawEntConfig Store) (o : adapter Client)
    (b : Ptr) (hb : w.deref b = some o) : b < w.heap.length := by
  unfold World.deref at hb
  rcases Nat.lt_or_ge b w.heap.length with h | h
  · exact h
  · rw [List.getElem?_eq_none h] at hb
    cases hb

theorem Tx_of_err (E : Entdb Client EntTx Ctx RawEntConfig Drv Store) (a : Ptr)
    (ctx : Option Ctx) (w : World Client EntTx Ctx RawEntConfig Store) (obj : adapter Client)
    (e : GoError) (ha : w.deref a = some obj)
    (herr : (E.HijackTx obj.db ctx txOptions w.store).1.err = some e) :
    adapter.Tx E a ctx w = some
      ({ ctx := none, driver := none,
         err := some (GoError.errorfW "failed to hijack transaction: " e) },
       { w with store := (E.HijackTx obj.db ctx txOptions w.store).2,
                calls := w.calls ++ [Call.HijackTx obj.db ctx txOptions] }) := by
  simp only [adapter.Tx, ha, herr]

theorem Tx_of_ok (E : Entdb Client EntTx Ctx RawEntConfig Drv Store) (a : Ptr)
    (ctx : Option Ctx) (w : World Client EntTx Ctx RawEntConfig Store) (obj : adapter Client)
    (ha : w.deref a = some obj)
    (herr : (E.HijackTx obj.db ctx txOptions w.store).1.err = none) :
    adapter.Tx E a ctx w = some
      ({ ctx := (E.HijackTx obj.db ctx txOptions w.store).1.txCtx,
         driver := some (NewTxDriver (E.HijackTx obj.db ctx txOptions w.store).1.eDriver
           (E.HijackTx obj.db ctx txOptions w.store).1.rawConfig),
         err := none },
       { w with store := (E.HijackTx obj.db ctx txOptions w.store).2,
                calls := w.calls ++ [Call.HijackTx obj.db ctx txOptions] }) := by
  simp only [adapter.Tx, ha, herr]

theorem WithTx_of_cfg (E : Entdb Client EntTx Ctx RawEntConfig Drv Store) (a : Ptr)
    (ctx : Option Ctx) (t : TxDriver RawEntConfig Drv) (cfg : RawEntConfig)
    (w : World Client EntTx Ctx RawEntConfig Store) (hcfg : t.GetConfig = some cfg) :
    adapter.WithTx E a ctx (some t) w = some
      (World.alloc
        { w with calls := w.calls ++ [Call.NewTxClientFromRawConfig ctx cfg,
                   Call.TxClient (E.NewTxClientFromRawConfig ctx cfg)] }
        { db := E.TxClient (E.NewTxClientFromRawConfig ctx cfg) }) := by
  simp only [adapter.WithTx, hcfg]

theorem Tx_total (E : Entdb Client EntTx Ctx RawEntConfig Drv Store) (a : Ptr)
    (ctx : Option Ctx) (w : World Client EntTx Ctx RawEntConfig Store) (obj : adapter Client)
    (ha : w.deref a = some obj) :
    ∃ r w', adapter.Tx E a ctx w = some (r, w') ∧
      w'.heap = w.heap ∧
      w'.calls = w.calls ++ [Call.HijackTx obj.db ctx txOptions] ∧
      w'.store = (E.HijackTx obj.db ctx txOptions w.store).2 ∧
      (r.err = none ↔ (E.HijackTx obj.db ctx txOptions w.store).1.err = none) ∧
      (r.err = none → r.driver = some
        (NewTxDriver (E.HijackTx obj.db ctx txOptions w.store).1.eDriver
          (E.HijackTx obj.db ctx txOptions w.store).1.rawConfig)) := by
  cases herr : (E.HijackTx obj.db ctx txOptions w.store).1.err with
  | some err =>
    refine ⟨_, _, Tx_of_err E a ctx w obj err ha herr, rfl, rfl, rfl, ?_, ?_⟩
    · simp
    · intro h
      cases h
  | none =>
    exact ⟨_, _, Tx_of_ok E a ctx w obj ha herr, rfl, rfl, rfl, by simp, fun _ => rfl⟩

theorem HijackTx_failed_store (c : Option StorageClient) (ctx : Option Carrier)
    (opts : TxOptions) (s : Storage) (e : GoError)
    (h : (Storage.HijackTx c ctx opts s).1.err = some e) :
    (Storage.HijackTx c ctx opts s).2 = s := by
  cases c with
  | none => rfl
  | some c =>
    by_cases hpool : s.openSessions < s.poolSize
    · simp [Storage.HijackTx, hpool] at h
    · simp [Storage.HijackTx, hpool]

/-- C1: `New config` returns a non-nil adapter and a nil error exactly when `config.Client`
is non-nil, and the adapter then holds that client; for a nil client it returns no adapter
and the error `errors.New("client is required")`, and allocates nothing. -/
theorem New_succeeds_iff_client (config : Config Client)
    (w : World Client EntTx Ctx RawEntConfig Store) :
    ((∃ p, (New config w).1 = (some p, none)) ↔ config.Client ≠ none) ∧
    (config.Client = none ↔
      New config w = ((none, some (GoError.errorsNew "client is required")), w)) ∧
    (∀ p, (New config w).1.1 = some p →
      (New config w).1.2 = none ∧ (New config w).2.deref p = some { db := config.Client }) := by
  cases hc : config.Client with
  | none =>
    simp [New, Config.Validate, hc]
  | some c =>
    refine ⟨?_, ?_, ?_⟩
    · simp [New, Config.Validate, hc, World.alloc]
    · simp [New, Config.Validate, hc, World.alloc]
    · intro p hp
      have hnew : New config w = ((some (w.alloc { db := config.Client }).1, none),
          (w.alloc { db := config.Client }).2) := by
        simp [New, Config.Validate, hc]
      rw [hnew] at hp ⊢
      simp only [Option.some.injEq] at hp
      subst hp
      refine ⟨rfl, ?_⟩
      rw [← hc]
      exact deref_alloc_new w _

/-- C2: when the client's `HijackTx` fails with cause `e`, `a.Tx ctx` returns a nil
context, a nil driver and the error `fmt.Errorf("failed to hijack transaction: %w", e)`,
whose `Unwrap` is `e`; the storage state after `Tx` is the one the failed `HijackTx` left
and no adapter is allocated.  This holds for every storage client.  Over the modelled
storage engine, whose begin-session call leaves the storage as it was when it fails, a
failing `Tx` therefore opens no session: the storage after the call is the storage before
it, and the open-session count after the call equals its value before the call. -/
theorem Tx_hijack_failure (E : Entdb Client EntTx Ctx RawEntConfig Drv Store) (a : Ptr)
    (ctx : Option Ctx) (w : World Client EntTx Ctx RawEntConfig Store) (obj : adapter Client)
    (e : GoError)
    (ha : w.deref a = some obj)
    (hfail : (E.HijackTx obj.db ctx txOptions w.store).1.err = some e) :
    (∃ err w', adapter.Tx E a ctx w =
        some ({ ctx := none, driver := none, err := some err }, w') ∧
      err = GoError.errorfW "failed to hijack transaction: " e ∧
      err.Unwrap = some e ∧
      w'.store = (E.HijackTx obj.db ctx txOptions w.store).2 ∧
      w'.heap = w.heap) ∧
    (∀ (b : Ptr) (sctx : Option Carrier) (sw : SpecWorld) (sobj : adapter StorageClient)
      (se : GoError), sw.deref b = some sobj →
      (Storage.HijackTx sobj.db sctx txOptions sw.store).1.err = some se →
      ∃ err w', adapter.Tx specEntdb b sctx sw =
          some ({ ctx := none, driver := none, err := some err }, w') ∧
        err.Unwrap = some se ∧
        w'.store = sw.store ∧
        w'.heap = sw.heap ∧
        w'.store.openSessions = sw.store.openSessions) := by
  refine ⟨⟨GoError.errorfW "failed to hijack transaction: " e,
    { w with store := (E.HijackTx obj.db ctx txOptions w.store).2,
             calls := w.calls ++ [Call.HijackTx obj.db ctx txOptions] },
    Tx_of_err E a ctx w obj e ha hfail, rfl, rfl, rfl, rfl⟩, ?_⟩
  intro b sctx sw sobj se hb hsfail
  have hsame := HijackTx_failed_store sobj.db sctx txOptions sw.store se hsfail
  have hTx := Tx_of_err specEntdb b sctx sw sobj se hb hsfail
  have hsame' : (specEntdb.HijackTx sobj.db sctx txOptions sw.store).2 = sw.store := hsame
  refine ⟨_, _, hTx, rfl, hsame', rfl, ?_⟩
  exact congrArg Storage.openSessions hsame'

/-- C3: `a.Tx ctx` calls `HijackTx` on the client held by `a`, with the given context and
the options `ReadOnly = false`, `Isolation = sql.LevelDefault`, and makes no other call;
when that call returns `(txCtx, rawConfig, eDriver, nil)`, `Tx` returns the context `txCtx`,
the driver `NewTxDriver(eDriver, rawConfig)` and a nil error. -/
theorem Tx_success (E : Entdb Client EntTx Ctx RawEntConfig Drv Store) (a : Ptr)
    (ctx : Option Ctx) (w : World Client EntTx Ctx RawEntConfig Store) (obj : adapter Client)
    (ha : w.deref a = some obj) :
    ∃ r w', adapter.Tx E a ctx w = some (r, w') ∧
      w'.calls = w.calls ++
        [Call.HijackTx obj.db ctx { Isolation := LevelDefault, ReadOnly := false }] ∧
      ∀ txCtx rawConfig eDriver s',
        E.HijackTx obj.db ctx { Isolation := LevelDefault, ReadOnly := false } w.store =
          ({ txCtx := txCtx, rawConfig := rawConfig, eDriver := eDriver, err := none }, s') →
        r.err = none ∧ r.ctx = txCtx ∧ r.driver = some (NewTxDriver eDriver rawConfig) ∧
        w'.store = s' := by
  cases herr : (E.HijackTx obj.db ctx txOptions w.store).1.err with
  | some err =>
    refine ⟨_, _, Tx_of_err E a ctx w obj err ha herr, rfl, ?_⟩
    intro txCtx rawConfig eDriver s' hcall
    have hcall' : E.HijackTx obj.db ctx txOptions w.store =
        ({ txCtx := txCtx, rawConfig := rawConfig, eDriver := eDriver, err := none }, s') := hcall
    rw [hcall'] at herr
    cases herr
  | none =>
    refine ⟨_, _, Tx_of_ok E a ctx w obj ha herr, rfl, ?_⟩
    intro txCtx rawConfig eDriver s' hcall
    have hcall' : E.HijackTx obj.db ctx txOptions w.store =
        ({ txCtx := txCtx, rawConfig := rawConfig, eDriver := eDriver, err := none }, s') := hcall
    rw [hcall']
    exact ⟨rfl, rfl, rfl, rfl⟩

/-- C4: for a driver `t` that carries a session configuration `cfg`, `a.WithTx ctx t`
returns a freshly allocated adapter whose client is
`NewTxClientFromRawConfig(ctx, cfg).Client()`.  The calls it makes are those two and none is
`HijackTx`; the storage state is unchanged.  The result is the same for every receiver, and
a second `WithTx` through another receiver yields an adapter with the identical client. -/
theorem WithTx_binds_session (E : Entdb Client EntTx Ctx RawEntConfig Drv Store) (a : Ptr)
    (ctx : Option Ctx) (t : TxDriver RawEntConfig Drv) (cfg : RawEntConfig)
    (w : World Client EntTx Ctx RawEntConfig Store) (hcfg : t.GetConfig = some cfg) :
    ∃ p w', adapter.WithTx E a ctx (some t) w = some (p, w') ∧
      w'.deref p = some { db := E.TxClient (E.NewTxClientFromRawConfig ctx cfg) } ∧
      w'.store = w.store ∧
      (∃ l, w'.calls = w.calls ++ l ∧ l.all (fun c => !c.isHijackTx) = true) ∧
      (w'.calls.filter Call.isHijackTx).length = (w.calls.filter Call.isHijackTx).length ∧
      (∀ b, adapter.WithTx E b ctx (some t) w = adapter.WithTx E a ctx (some t) w) ∧
      (∀ b, ∃ q w'', adapter.WithTx E b ctx (some t) w' = some (q, w'') ∧
        w''.deref q = some { db := E.TxClient (E.NewTxClientFromRawConfig ctx cfg) } ∧
        w''.deref p = some { db := E.TxClient (E.NewTxClientFromRawConfig ctx cfg) }) := by
  refine ⟨_, _, WithTx_of_cfg E a ctx t cfg w hcfg, deref_alloc_new _ _, rfl,
    ⟨[Call.NewTxClientFromRawConfig ctx cfg,
      Call.TxClient (E.NewTxClientFromRawConfig ctx cfg)], rfl, rfl⟩, ?_, ?_, ?_⟩
  · simp [World.alloc, List.filter_append, Call.isHijackTx]
  · intro b
    rfl
  · intro b
    refine ⟨_, _, WithTx_of_cfg E b ctx t cfg _ hcfg, deref_alloc_new _ _, ?_⟩
    apply deref_alloc_old
    exact deref_alloc_new _ _

/-- C5: the client held by a live adapter `a` never changes.  `WithTx`, through any
receiver, returns a pointer different from `a` that referred to nothing before and refers,
in the resulting heap, to a new adapter object (holding the client built from the driver's
configuration); the resulting heap is the old one with exactly that object appended, and
the object at `a` is as it was.  `Tx` leaves the heap unchanged and `Self` changes
nothing, so they too leave the object at `a` as it was. -/
theorem adapter_db_immutable (E : Entdb Client EntTx Ctx RawEntConfig Drv Store) (a : Ptr)
    (obj : adapter Client) (w : World Client EntTx Ctx RawEntConfig Store)
    (ha : w.deref a = some obj) :
    (∀ (b : Ptr) (ctx : Option Ctx) (t : TxDriver RawEntConfig Drv) (cfg : RawEntConfig),
      t.GetConfig = some cfg →
      ∃ p w', adapter.WithTx E b ctx (some t) w = some (p, w') ∧
        p ≠ a ∧ w.deref p = none ∧
        w'.deref p = some { db := E.TxClient (E.NewTxClientFromRawConfig ctx cfg) } ∧
        w'.heap = w.heap ++ [{ db := E.TxClient (E.NewTxClientFromRawConfig ctx cfg) }] ∧
        w'.deref a = some obj) ∧
    (∀ (b : Ptr) (ctx : Option Ctx) (tx : Option (TxDriver RawEntConfig Drv)) p w',
      adapter.WithTx E b ctx tx w = some (p, w') →
        p ≠ a ∧ w.deref p = none ∧
        (∃ o, w'.deref p = some o ∧ w'.heap = w.heap ++ [o]) ∧
        w'.deref a = some obj) ∧
    (∀ (ctx : Option Ctx), ∃ r w', adapter.Tx E a ctx w = some (r, w') ∧
      w'.heap = w.heap ∧ w'.deref a = some obj) ∧
    (adapter.Self a w).1 = a ∧ (adapter.Self a w).2 = w ∧
    (adapter.Self a w).2.deref a = some obj := by
  have hlt := deref_lt w obj a ha
  have key : ∀ (b : Ptr) (ctx : Option Ctx) (t : TxDriver RawEntConfig Drv)
      (cfg : RawEntConfig) p w', t.GetConfig = some cfg →
      adapter.WithTx E b ctx (some t) w = some (p, w') →
        p ≠ a ∧ w.deref p = none ∧
        w'.deref p = some { db := E.TxClient (E.NewTxClientFromRawConfig ctx cfg) } ∧
        w'.heap = w.heap ++ [{ db := E.TxClient (E.NewTxClientFromRawConfig ctx cfg) }] ∧
        w'.deref a = some obj := by
    intro b ctx t cfg p w' hc h
    rw [WithTx_of_cfg E b ctx t cfg w hc] at h
    simp only [Option.some.injEq] at h
    have hp : p = w.heap.length := (congrArg Prod.fst h).symm
    have hw : w' = (World.alloc
        { w with calls := w.calls ++ [Call.NewTxClientFromRawConfig ctx cfg,
                   Call.TxClient (E.NewTxClientFromRawConfig ctx cfg)] }
        { db := E.TxClient (E.NewTxClientFromRawConfig ctx cfg) }).2 := by rw [h]
    refine ⟨?_, ?_, ?_, ?_, ?_⟩
    · intro hpa
      rw [hp] at hpa
      rw [hpa] at hlt
      exact Nat.lt_irrefl _ hlt
    · rw [hp]
      simp [World.deref]
    · rw [hw, hp]
      exact deref_alloc_new
        ({ w with calls := w.calls ++ [Call.NewTxClientFromRawConfig ctx cfg,
            Call.TxClient (E.NewTxClientFromRawConfig ctx cfg)] } :
          World Client EntTx Ctx RawEntConfig Store)
        { db := E.TxClient (E.NewTxClientFromRawConfig ctx cfg) }
    · rw [hw]
      rfl
    · rw [hw]
      apply deref_alloc_old
      exact ha
  refine ⟨?_, ?_, ?_, rfl, rfl, ha⟩
  · intro b ctx t cfg hcfg
    have hdef := WithTx_of_cfg E b ctx t cfg w hcfg
    exact ⟨_, _, hdef, key b ctx t cfg _ _ hcfg hdef⟩
  · intro b ctx tx p w' h
    cases tx with
    | none => simp [adapter.WithTx] at h
    | some t =>
      cases hc : t.GetConfig with
      | none => simp [adapter.WithTx, hc] at h
      | some cfg =>
        obtain ⟨h1, h2, h3, h4, h5⟩ := key b ctx t cfg p w' hc h
        exact ⟨h1, h2, ⟨_, h3, h4⟩, h5⟩
  · intro ctx
    cases herr : (E.HijackTx obj.db ctx txOptions w.store).1.err with
    | some err => exact ⟨_, _, Tx_of_err E a ctx w obj err ha herr, rfl, ha⟩
    | none => exact ⟨_, _, Tx_of_ok E a ctx w obj ha herr, rfl, ha⟩

/-- C6: `a.Self()` returns the pointer `a` and changes nothing, for every pointer `a`; so
`a.Self().Self()` is again `a`. -/
theorem Self_returns_receiver (a : Ptr) (w : World Client EntTx Ctx RawEntConfig Store) :
    adapter.Self a w = (a, w) ∧
    adapter.Self (adapter.Self a w).1 (adapter.Self a w).2 = (a, w) ∧
    (adapter.Self a w).1 = (adapter.Self (adapter.Self a w).1 (adapter.Self a w).2).1 :=
  ⟨rfl, rfl, rfl⟩

/-- C8: for a live adapter and every context, `a.Tx ctx` is defined and makes exactly one
call into the storage client, `HijackTx` on the adapter's client with that very context; it
succeeds exactly when that call does, and the driver it returns is built from the results
of that call.  The same holds when `Tx` is called again with the context the first `Tx`
returned: a second `HijackTx` call is made, on the storage state the first one left, and
the second driver is built from the results of the second call. -/
theorem Tx_no_nested_detection (E : Entdb Client EntTx Ctx RawEntConfig Drv Store) (a : Ptr)
    (ctx : Option Ctx) (w : World Client EntTx Ctx RawEntConfig Store) (obj : adapter Client)
    (ha : w.deref a = some obj) :
    ∃ r w', adapter.Tx E a ctx w = some (r, w') ∧
      w'.calls = w.calls ++ [Call.HijackTx obj.db ctx txOptions] ∧
      (w'.calls.filter Call.isHijackTx).length = (w.calls.filter Call.isHijackTx).length + 1 ∧
      w'.store = (E.HijackTx obj.db ctx txOptions w.store).2 ∧
      (r.err = none ↔ (E.HijackTx obj.db ctx txOptions w.store).1.err = none) ∧
      (r.err = none → r.driver = some
        (NewTxDriver (E.HijackTx obj.db ctx txOptions w.store).1.eDriver
          (E.HijackTx obj.db ctx txOptions w.store).1.rawConfig)) ∧
      ∃ r2 w2, adapter.Tx E a r.ctx w' = some (r2, w2) ∧
        w2.calls = w.calls ++
          [Call.HijackTx obj.db ctx txOptions, Call.HijackTx obj.db r.ctx txOptions] ∧
        (w2.calls.filter Call.isHijackTx).length =
          (w.calls.filter Call.isHijackTx).length + 2 ∧
        w2.store = (E.HijackTx obj.db r.ctx txOptions w'.store).2 ∧
        (r2.err = none ↔ (E.HijackTx obj.db r.ctx txOptions w'.store).1.err = none) ∧
        (r2.err = none → r2.driver = some
          (NewTxDriver (E.HijackTx obj.db r.ctx txOptions w'.store).1.eDriver
            (E.HijackTx obj.db r.ctx txOptions w'.store).1.rawConfig)) := by
  obtain ⟨r, w', hTx, hheap, hcalls, hstore, herr, hdrv⟩ := Tx_total E a ctx w obj ha
  have ha' : w'.deref a = some obj := by
    unfold World.deref at ha ⊢
    rw [hheap]
    exact ha
  obtain ⟨r2, w2, hTx2, _, hcalls2, hstore2, herr2, hdrv2⟩ := Tx_total E a r.ctx w' obj ha'
  refine ⟨r, w', hTx, hcalls, ?_, hstore, herr, hdrv, r2, w2, hTx2, ?_, ?_, hstore2, herr2, hdrv2⟩
  · rw [hcalls]
    simp [List.filter_append, Call.isHijackTx]
  · rw [hcalls2, hcalls]
    simp
  · rw [hcalls2, hcalls]
    simp [List.filter_append, Call.isHijackTx]

/-- C10: when `HijackTx` succeeds with a raw configuration `rc`, `a.Tx ctx` returns a driver
`d` with `d.GetConfig() = rc`, and `b.WithTx ctx2 d` is then defined for every receiver `b`
and every context `ctx2` (the dereference of `d.GetConfig()` finds `rc`); the adapter it
returns holds the client `NewTxClientFromRawConfig(ctx2, rc).Client()`, and the storage
state is still the one `HijackTx` left. -/
theorem Tx_then_WithTx (E : Entdb Client EntTx Ctx RawEntConfig Drv Store) (a b : Ptr)
    (ctx ctx2 : Option Ctx) (w : World Client EntTx Ctx RawEntConfig Store)
    (obj : adapter Client) (txCtx : Option Ctx) (rc : RawEntConfig) (eDriver : Option Drv)
    (s' : Store) (ha : w.deref a = some obj)
    (hcall : E.HijackTx obj.db ctx txOptions w.store =
      ({ txCtx := txCtx, rawConfig := some rc, eDriver := eDriver, err := none }, s')) :
    ∃ d w1, adapter.Tx E a ctx w = some ({ ctx := txCtx, driver := some d, err := none }, w1) ∧
      d = NewTxDriver eDriver (some rc) ∧
      d.GetConfig = some rc ∧
      ∃ p w2, adapter.WithTx E b ctx2 (some d) w1 = some (p, w2) ∧
        w2.deref p = some { db := E.TxClient (E.NewTxClientFromRawConfig ctx2 rc) } ∧
        w2.store = s' := by
  have herr : (E.HijackTx obj.db ctx txOptions w.store).1.err = none := by rw [hcall]
  have hTx := Tx_of_ok E a ctx w obj ha herr
  rw [hcall] at hTx
  refine ⟨NewTxDriver eDriver (some rc), _, hTx, rfl, rfl, ?_⟩
  exact ⟨_, _, WithTx_of_cfg E b ctx2 (NewTxDriver eDriver (some rc)) rc _ rfl,
    deref_alloc_new _ _, rfl⟩

end AdapterTheorems

/-! ## Properties over the modelled storage engine -/

theorem getElem?_lt {α : Type} (l : List α) (i : Nat) (x : α) (h : l[i]? = some x) :
    i < l.length := by
  rcases Nat.lt_or_ge i l.length with hlt | hge
  · exact hlt
  · rw [List.getElem?_eq_none hge] at h
    cases h

theorem setSession_same (s : Storage) (id : SessionId) (x y : Session)
    (h : s.sessions[id]? = some x) : (s.setSession id y).sessions[id]? = some y := by
  simp only [Storage.setSession]
  exact List.getElem?_set_self (getElem?_lt _ _ _ h)

theorem setSession_other (s : Storage) (id j : SessionId) (y : Session) (h : id ≠ j) :
    (s.setSession id y).sessions[j]? = s.sessions[j]? := by
  simp only [Storage.setSession]
  exact List.getElem?_set_ne h

/-- A Tx that returns a driver over the modelled engine opened a fresh session: the driver
is the one of the session appended to the storage, opened with the options of `Tx`. -/
theorem spec_Tx_driver (a : Ptr) (ctx : Option Carrier) (w0 w1 : SpecWorld)
    (r : TxRet Carrier SessionId SessionId) (d : TxDriver SessionId SessionId)
    (hTx : adapter.Tx specEntdb a ctx w0 = some (r, w1)) (hd : r.driver = some d) :
    d = sessionDriver w0.store.sessions.length ∧ r.err = none ∧
    w1.heap = w0.heap ∧
    w1.store = { w0.store with sessions := w0.store.sessions ++
      [{ opts := txOptions, state := DriverState.Open, invalidated := false, writes := [] }] } := by
  cases hobj : w0.deref a with
  | none => simp [adapter.Tx, hobj] at hTx
  | some obj =>
    cases herr : (specEntdb.HijackTx obj.db ctx txOptions w0.store).1.err with
    | some e =>
      rw [Tx_of_err specEntdb a ctx w0 obj e hobj herr] at hTx
      simp only [Option.some.injEq, Prod.mk.injEq] at hTx
      rw [← hTx.1] at hd
      cases hd
    | none =>
      rw [Tx_of_ok specEntdb a ctx w0 obj hobj herr] at hTx
      simp only [Option.some.injEq, Prod.mk.injEq] at hTx
      obtain ⟨hr, hw⟩ := hTx
      rw [← hr] at hd
      simp only [Option.some.injEq] at hd
      rw [← hr, ← hw, ← hd]
      cases hdb : obj.db with
      | none =>
        rw [hdb] at herr
        simp [specEntdb, Storage.HijackTx] at herr
      | some c =>
        rw [hdb] at herr
        by_cases hpool : w0.store.openSessions < w0.store.poolSize
        · simp [specEntdb, Storage.HijackTx, hpool, sessionDriver]
        · simp [specEntdb, Storage.HijackTx, hpool] at herr

theorem write_in_session (id : SessionId) (ws : List Record) (r : Record) (s : Storage)
    (hs : s.sessions[id]? = some (Session.opened ws)) :
    s.write (some (StorageClient.session id)) r =
      (true, s.setSession id (Session.opened (ws ++ [r]))) := by
  simp [Storage.write, hs, txOptions, Session.opened]

theorem rollback_open (id : SessionId) (x : Session) (s : Storage)
    (hs : s.sessions[id]? = some x) (hx : x.state = DriverState.Open) :
    s.rollback id =
      (none, s.setSession id { x with state := DriverState.RolledBack, writes := [] }) := by
  simp only [Storage.rollback, hs, hx]

theorem commit_open_live (id : SessionId) (x : Session) (s : Storage)
    (hs : s.sessions[id]? = some x) (hx : x.state = DriverState.Open)
    (hlive : x.invalidated = false) :
    s.commit id =
      (none, { (s.setSession id { x with state := DriverState.Committed, writes := [] }) with
               persisted := s.persisted ++ x.writes }) := by
  simp [Storage.commit, hs, hx, hlive]

theorem commit_open_dropped (id : SessionId) (x : Session) (s : Storage)
    (hs : s.sessions[id]? = some x) (hx : x.state = DriverState.Open)
    (hdead : x.invalidated = true) :
    s.commit id =
      (some DriverError.CommitError,
        s.setSession id { x with state := DriverState.RolledBack, writes := [] }) := by
  simp [Storage.commit, hs, hx, hdead]

theorem SiblingStep_run_rebind (id : SessionId) (base ws : List Record) (receiver : Ptr)
    (ctx : Option Carrier) (st : SpecWorld × List Ptr) (h : RunInv id base ws st) :
    ∃ st', (SiblingStep.rebind receiver ctx).run (sessionDriver id) st = some st' ∧
      st'.2.length = st.2.length + 1 ∧ RunInv id base ws st' := by
  obtain ⟨w, sibs⟩ := st
  obtain ⟨hin, hsib⟩ := h
  have hW := WithTx_of_cfg specEntdb receiver ctx (sessionDriver id) id w rfl
  have hrun : (SiblingStep.rebind receiver ctx).run (sessionDriver id) (w, sibs) = some
      ((World.alloc
          ({ w with calls := w.calls ++ [Call.NewTxClientFromRawConfig ctx id,
              Call.TxClient (some id)] } : SpecWorld)
          { db := some (StorageClient.session id) }).2,
        sibs ++ [w.heap.length]) := by
    simp only [SiblingStep.run, hW]
    rfl
  refine ⟨_, hrun, ?_, hin, ?_⟩
  · simp
  · intro p hp
    rcases List.mem_append.mp hp with hold | hnew
    · exact deref_alloc_old _ _ _ p (hsib p hold)
    · rw [List.mem_singleton] at hnew
      rw [hnew]
      exact deref_alloc_new
        ({ w with calls := w.calls ++ [Call.NewTxClientFromRawConfig ctx id,
            Call.TxClient (some id)] } : SpecWorld)
        { db := some (StorageClient.session id) }

theorem SiblingStep_run_write (id : SessionId) (base ws : List Record) (k : Nat) (r : Record)
    (st : SpecWorld × List Ptr) (h : RunInv id base ws st) (hk : k < st.2.length) :
    ∃ st', (SiblingStep.write k r).run (sessionDriver id) st = some st' ∧
      st'.2.length = st.2.length ∧ RunInv id base (ws ++ [r]) st' := by
  obtain ⟨w, sibs⟩ := st
  obtain ⟨⟨hp, hs⟩, hsib⟩ := h
  have hget : sibs[k]? = some (sibs.get ⟨k, hk⟩) := List.getElem?_eq_getElem hk
  have hderef := hsib (sibs.get ⟨k, hk⟩) (List.get_mem sibs k hk)
  have hwrite := write_in_session id ws r w.store hs
  have hrun : (SiblingStep.write k r).run (sessionDriver id) (w, sibs) = some
      (({ w with store := w.store.setSession id (Session.opened (ws ++ [r])) } : SpecWorld),
        sibs) := by
    simp only [SiblingStep.run, hget, adapter.write]
    simp only [hderef, hwrite]
  refine ⟨_, hrun, rfl, ⟨hp, setSession_same _ _ _ _ hs⟩, ?_⟩
  intro p hpmem
  exact hsib p hpmem

theorem runSiblings_run (id : SessionId) (base : List Record) (steps : List SiblingStep) :
    ∀ (ws : List Record) (st : SpecWorld × List Ptr), RunInv id base ws st →
      wellFormed steps st.2.length = true →
      ∃ st', runSiblings (sessionDriver id) steps st = some st' ∧
        RunInv id base (ws ++ writesOf steps) st' := by
  induction steps with
  | nil =>
    intro ws st h _
    exact ⟨st, rfl, by simpa [writesOf] using h⟩
  | cons step rest ih =>
    intro ws st h hwf
    cases step with
    | rebind receiver ctx =>
      obtain ⟨st', hrun, hlen, hinv⟩ := SiblingStep_run_rebind id base ws receiver ctx st h
      have hwf' : wellFormed rest st'.2.length = true := by
        rw [hlen]
        exact hwf
      obtain ⟨stn, hn, hinvn⟩ := ih ws st' hinv hwf'
      refine ⟨stn, ?_, hinvn⟩
      simp only [runSiblings, hrun]
      exact hn
    | write k r =>
      simp only [wellFormed, Bool.and_eq_true, decide_eq_true_eq] at hwf
      obtain ⟨st', hrun, hlen, hinv⟩ := SiblingStep_run_write id base ws k r st h hwf.1
      have hwf' : wellFormed rest st'.2.length = true := by
        rw [hlen]
        exact hwf.2
      obtain ⟨stn, hn, hinvn⟩ := ih (ws ++ [r]) st' hinv hwf'
      refine ⟨stn, ?_, ?_⟩
      · simp only [runSiblings, hrun]
        exact hn
      · simpa [writesOf] using hinvn

theorem New_pooled_read (w : SpecWorld) :
    ∃ p w', New { Client := some StorageClient.pooled } w = ((some p, none), w') ∧
      w'.store = w.store ∧ adapter.read p w' = some w.store.persisted := by
  refine ⟨(w.alloc { db := some StorageClient.pooled }).1,
    (w.alloc { db := some StorageClient.pooled }).2, rfl, rfl, ?_⟩
  have hderef := deref_alloc_new w { db := some StorageClient.pooled }
  unfold adapter.read
  rw [hderef]
  rfl

/-- C9: over the modelled storage engine.  After a `Tx` that returned the driver `d`, every
sequence of steps that obtain sibling adapters by `WithTx` from `d` and write through them
runs to the end with every write accepted and nothing persisted yet.  Rolling back through
`d` then succeeds and leaves the persisted records as they were before `Tx`, which is also
what a fresh default adapter reads.  Committing through `d` succeeds and a fresh default
adapter then reads the records persisted before `Tx` followed by all the writes, in order. -/
theorem sibling_writes_atomic (a : Ptr) (ctx : Option Carrier) (w0 w1 : SpecWorld)
    (r : TxRet Carrier SessionId SessionId) (d : TxDriver SessionId SessionId)
    (steps : List SiblingStep)
    (hTx : adapter.Tx specEntdb a ctx w0 = some (r, w1)) (hd : r.driver = some d)
    (hwf : wellFormed steps 0 = true) :
    ∃ wn sibs, runSiblings d steps (w1, []) = some (wn, sibs) ∧
      wn.store.persisted = w0.store.persisted ∧
      (∃ s', d.Rollback wn.store = some (none, s') ∧
        s'.persisted = w0.store.persisted ∧
        ∃ p w', New { Client := some StorageClient.pooled } { wn with store := s' } =
            ((some p, none), w') ∧
          adapter.read p w' = some w0.store.persisted) ∧
      (∃ s', d.Commit wn.store = some (none, s') ∧
        s'.persisted = w0.store.persisted ++ writesOf steps ∧
        ∃ p w', New { Client := some StorageClient.pooled } { wn with store := s' } =
            ((some p, none), w') ∧
          adapter.read p w' = some (w0.store.persisted ++ writesOf steps) ∧
          ∀ x ∈ writesOf steps, ∀ l, adapter.read p w' = some l → x ∈ l) := by
  obtain ⟨hdrv, _, _, hstore⟩ := spec_Tx_driver a ctx w0 w1 r d hTx hd
  have hin : RunInv w0.store.sessions.length w0.store.persisted [] (w1, []) := by
    refine ⟨?_, ?_⟩
    · show InSession _ _ _ w1.store
      rw [hstore]
      exact ⟨rfl, List.getElem?_concat_length _ _⟩
    · intro p hp
      cases hp
  obtain ⟨⟨wn, sibs⟩, hwn, ⟨hp, hs⟩, _⟩ :=
    runSiblings_run w0.store.sessions.length w0.store.persisted steps [] (w1, []) hin hwf
  rw [List.nil_append] at hs
  rw [hdrv]
  have hp' : wn.store.persisted = w0.store.persisted := hp
  have hs' : wn.store.sessions[w0.store.sessions.length]? =
      some (Session.opened (writesOf steps)) := hs
  have hrb := rollback_open _ _ wn.store hs' rfl
  have hcm := commit_open_live _ _ wn.store hs' rfl rfl
  refine ⟨wn, sibs, hwn, hp', ⟨_, congrArg some hrb, hp', ?_⟩, ⟨_, congrArg some hcm, ?_, ?_⟩⟩
  · obtain ⟨p, w', hnew, _, hread⟩ := New_pooled_read
      ({ wn with store := (wn.store.rollback w0.store.sessions.length).2 } : SpecWorld)
    rw [hrb] at hnew hread
    refine ⟨p, w', hnew, ?_⟩
    rw [hread]
    exact congrArg some hp'
  · exact congrArg (fun l => l ++ writesOf steps) hp'
  · obtain ⟨p, w', hnew, _, hread⟩ := New_pooled_read
      ({ wn with store := (wn.store.commit w0.store.sessions.length).2 } : SpecWorld)
    rw [hcm] at hnew hread
    have hread' : adapter.read p w' = some (w0.store.persisted ++ writesOf steps) := by
      rw [hread]
      exact congrArg (fun l => some (l ++ writesOf steps)) hp'
    refine ⟨p, w', hnew, hread', ?_⟩
    intro x hx l hl
    rw [hread'] at hl
    simp only [Option.some.injEq] at hl
    rw [← hl]
    exact List.mem_append_right _ hx

theorem finished_session_kept (id : SessionId) (x : Session) (s : Storage)
    (hs : s.sessions[id]? = some x) (hx : x.state ≠ DriverState.Open) (op : StorageOp) :
    ∃ y, (op.apply s).sessions[id]? = some y ∧ y.state = x.state := by
  cases op with
  | hijack c ctx opts =>
    cases c with
    | none => exact ⟨x, hs, rfl⟩
    | some c =>
      by_cases hpool : s.openSessions < s.poolSize
      · refine ⟨x, ?_, rfl⟩
        simp only [StorageOp.apply, Storage.HijackTx, hpool, if_true]
        rw [List.getElem?_append_left (getElem?_lt _ _ _ hs)]
        exact hs
      · refine ⟨x, ?_, rfl⟩
        simp only [StorageOp.apply, Storage.HijackTx, hpool, if_false]
        exact hs
  | commit j =>
    cases hj : s.sessions[j]? with
    | none =>
      refine ⟨x, ?_, rfl⟩
      simp only [StorageOp.apply, Storage.commit, hj]
      exact hs
    | some z =>
      by_cases hz : z.state = DriverState.Open
      · have hne : j ≠ id := by
          intro h
          rw [h, hs] at hj
          simp only [Option.some.injEq] at hj
          rw [hj] at hx
          exact hx hz
        refine ⟨x, ?_, rfl⟩
        by_cases hdead : z.invalidated = true
        · rw [StorageOp.apply, commit_open_dropped j z s hj hz hdead]
          rw [setSession_other _ _ _ _ hne]
          exact hs
        · rw [StorageOp.apply, commit_open_live j z s hj hz (by simpa using hdead)]
          have := setSession_other s j id
            { z with state := DriverState.Committed, writes := [] } hne
          rw [← hs, ← this]
      · refine ⟨x, ?_, rfl⟩
        have hsame : s.commit j = (some DriverError.InvalidDriverStateError, s) := by
          simp only [Storage.commit, hj]
        rw [StorageOp.apply, hsame]
        exact hs
  | rollback j =>
    cases hj : s.sessions[j]? with
    | none =>
      refine ⟨x, ?_, rfl⟩
      simp only [StorageOp.apply, Storage.rollback, hj]
      exact hs
    | some z =>
      by_cases hz : z.state = DriverState.Open
      · have hne : j ≠ id := by
          intro h
          rw [h, hs] at hj
          simp only [Option.some.injEq] at hj
          rw [hj] at hx
          exact hx hz
        refine ⟨x, ?_, rfl⟩
        rw [StorageOp.apply, rollback_open j z s hj hz, setSession_other _ _ _ _ hne]
        exact hs
      · refine ⟨x, ?_, rfl⟩
        have hsame : s.rollback j = (some DriverError.InvalidDriverStateError, s) := by
          simp only [Storage.rollback, hj]
        rw [StorageOp.apply, hsame]
        exact hs
  | write c r =>
    cases c with
    | none => exact ⟨x, hs, rfl⟩
    | some c =>
      cases c with
      | pooled => exact ⟨x, hs, rfl⟩
      | session j =>
        cases hj : s.sessions[j]? with
        | none =>
          refine ⟨x, ?_, rfl⟩
          simp only [StorageOp.apply, Storage.write, hj]
          exact hs
        | some z =>
          by_cases hc : z.state = DriverState.Open ∧ z.invalidated = false ∧
              z.opts.ReadOnly = false
          · have hne : j ≠ id := by
              intro h
              rw [h, hs] at hj
              simp only [Option.some.injEq] at hj
              rw [hj] at hx
              exact hx hc.1
            refine ⟨x, ?_, rfl⟩
            simp only [StorageOp.apply, Storage.write, hj, hc, and_self, if_true]
            rw [setSession_other _ _ _ _ hne]
            exact hs
          · refine ⟨x, ?_, rfl⟩
            simp only [StorageOp.apply, Storage.write, hj, hc, if_false]
            exact hs
  | dropConnection j =>
    cases hj : s.sessions[j]? with
    | none =>
      refine ⟨x, ?_, rfl⟩
      simp only [StorageOp.apply, Storage.dropConnection, hj]
      exact hs
    | some z =>
      by_cases hne : j = id
      · rw [hne, hs] at hj
        simp only [Option.some.injEq] at hj
        refine ⟨{ x with invalidated := true }, ?_, rfl⟩
        simp only [StorageOp.apply, Storage.dropConnection, hne, hs]
        exact setSession_same _ _ _ _ hs
      · refine ⟨x, ?_, rfl⟩
        simp only [StorageOp.apply, Storage.dropConnection, hj]
        rw [setSession_other _ _ _ _ hne]
        exact hs

theorem finished_session_stays (id : SessionId) (ops : List StorageOp) :
    ∀ (x : Session) (s : Storage), s.sessions[id]? = some x → x.state ≠ DriverState.Open →
      ∃ y, (StorageOp.applyAll ops s).sessions[id]? = some y ∧ y.state = x.state := by
  induction ops with
  | nil =>
    intro x s hs _
    exact ⟨x, hs, rfl⟩
  | cons op rest ih =>
    intro x s hs hx
    obtain ⟨y, hy, hyx⟩ := finished_session_kept id x s hs hx op
    obtain ⟨z, hz, hzy⟩ := ih y (op.apply s) hy (by rw [hyx]; exact hx)
    exact ⟨z, hz, by rw [hzy, hyx]⟩

theorem state_sessionDriver (id : SessionId) (s : Storage) (st : DriverState)
    (h : (sessionDriver id).state s = some st) :
    ∃ x, s.sessions[id]? = some x ∧ x.state = st := by
  simp only [TxDriver.state, sessionDriver, NewTxDriver] at h
  cases hx : s.sessions[id]? with
  | none =>
    rw [hx] at h
    cases h
  | some x =>
    rw [hx] at h
    simp only [Option.map_some', Option.some.injEq] at h
    exact ⟨x, rfl, h⟩

/-- C7: over the modelled storage engine.  The driver `d` returned by a successful `Tx` is
in state `Open`.  From `Open`, a commit ends in `Committed` (without error) or, on a dropped
connection, in `RolledBack` with `CommitError`, and a rollback ends in `RolledBack`.  Once
`d` is `Committed` or `RolledBack`, commit and rollback both return
`InvalidDriverStateError` and change nothing, and `d` keeps that state under every sequence
of storage operations, so it is never `Open` again. -/
theorem driver_lifecycle (a : Ptr) (ctx : Option Carrier) (w0 w1 : SpecWorld)
    (r : TxRet Carrier SessionId SessionId) (d : TxDriver SessionId SessionId)
    (hTx : adapter.Tx specEntdb a ctx w0 = some (r, w1)) (hd : r.driver = some d) :
    d.state w1.store = some DriverState.Open ∧
    (∀ s, d.state s = some DriverState.Open →
      (∃ e s', d.Commit s = some (e, s') ∧
        ((e = none ∧ d.state s' = some DriverState.Committed) ∨
         (e = some DriverError.CommitError ∧ d.state s' = some DriverState.RolledBack))) ∧
      (∃ s', d.Rollback s = some (none, s') ∧ d.state s' = some DriverState.RolledBack)) ∧
    (∀ s st, d.state s = some st → st ≠ DriverState.Open →
      d.Commit s = some (some DriverError.InvalidDriverStateError, s) ∧
      d.Rollback s = some (some DriverError.InvalidDriverStateError, s) ∧
      ∀ ops, d.state (StorageOp.applyAll ops s) = some st ∧
        d.Commit (StorageOp.applyAll ops s) =
          some (some DriverError.InvalidDriverStateError, StorageOp.applyAll ops s) ∧
        d.Rollback (StorageOp.applyAll ops s) =
          some (some DriverError.InvalidDriverStateError, StorageOp.applyAll ops s)) := by
  obtain ⟨hdrv, _, _, hstore⟩ := spec_Tx_driver a ctx w0 w1 r d hTx hd
  rw [hdrv]
  have hfin : ∀ s st, (sessionDriver w0.store.sessions.length).state s = some st →
      st ≠ DriverState.Open →
      (sessionDriver w0.store.sessions.length).Commit s =
        some (some DriverError.InvalidDriverStateError, s) ∧
      (sessionDriver w0.store.sessions.length).Rollback s =
        some (some DriverError.InvalidDriverStateError, s) := by
    intro s st hst hne
    obtain ⟨x, hx, hxs⟩ := state_sessionDriver _ s st hst
    rw [← hxs] at hne
    constructor
    · simp only [TxDriver.Commit, sessionDriver, NewTxDriver, Storage.commit, hx]
    · simp only [TxDriver.Rollback, sessionDriver, NewTxDriver, Storage.rollback, hx]
  refine ⟨?_, ?_, ?_⟩
  · rw [hstore]
    simp only [TxDriver.state, sessionDriver, NewTxDriver, List.getElem?_concat_length,
      Option.map_some']
  · intro s hs
    obtain ⟨x, hx, hxs⟩ := state_sessionDriver _ s _ hs
    constructor
    · by_cases hdead : x.invalidated = true
      · refine ⟨_, _, congrArg some (commit_open_dropped _ x s hx hxs hdead), Or.inr ⟨rfl, ?_⟩⟩
        simp only [TxDriver.state, sessionDriver, NewTxDriver, setSession_same _ _ _ _ hx,
          Option.map_some']
      · refine ⟨_, _, congrArg some (commit_open_live _ x s hx hxs (by simpa using hdead)),
          Or.inl ⟨rfl, ?_⟩⟩
        have hset := setSession_same s w0.store.sessions.length x
          { x with state := DriverState.Committed, writes := [] } hx
        simp only [TxDriver.state, sessionDriver, NewTxDriver]
        exact congrArg (Option.map Session.state) hset
    · refine ⟨_, congrArg some (rollback_open _ x s hx hxs), ?_⟩
      simp only [TxDriver.state, sessionDriver, NewTxDriver, setSession_same _ _ _ _ hx,
        Option.map_some']
  · intro s st hst hne
    refine ⟨(hfin s st hst hne).1, (hfin s st hst hne).2, ?_⟩
    intro ops
    obtain ⟨x, hx, hxs⟩ := state_sessionDriver _ s st hst
    obtain ⟨y, hy, hyx⟩ := finished_session_stays _ ops x s hx (by rw [hxs]; exact hne)
    have hstate : (sessionDriver w0.store.sessions.length).state (StorageOp.applyAll ops s) =
        some st := by
      simp only [TxDriver.state, sessionDriver, NewTxDriver, hy, Option.map_some']
      rw [hyx, hxs]
    exact ⟨hstate, (hfin _ st hstate hne).1, (hfin _ st hstate hne).2⟩

/-! ## The theorems at concrete worlds -/

theorem Tx_hijack_failure_witness :
    ∃ err w', adapter.Tx specEntdb 0 none (bootWorld 0) =
        some ({ ctx := none, driver := none, err := some err }, w') ∧
      err.Unwrap = some (GoError.errorsNew "pool exhausted") ∧
      w'.store = (bootWorld 0).store ∧
      w'.store.openSessions = (bootWorld 0).store.openSessions := by
  obtain ⟨err, w', h1, h2, h3, _, h5⟩ :=
    (Tx_hijack_failure specEntdb 0 none (bootWorld 0) { db := some StorageClient.pooled }
      (GoError.errorsNew "pool exhausted") rfl rfl).2
      0 none (bootWorld 0) { db := some StorageClient.pooled }
      (GoError.errorsNew "pool exhausted") rfl rfl
  exact ⟨err, w', h1, h2, h3, h5⟩

theorem Tx_success_witness :
    ∃ r w', adapter.Tx specEntdb 0 none (bootWorld 1) = some (r, w') ∧
      r.err = none ∧ r.ctx = some { active := 0 } ∧
      r.driver = some (NewTxDriver (some 0) (some 0)) ∧
      w'.calls = [Call.HijackTx (some StorageClient.pooled) none
        { Isolation := 0, ReadOnly := false }] := by
  obtain ⟨r, w', h1, h2, h3⟩ :=
    Tx_success specEntdb 0 none (bootWorld 1) { db := some StorageClient.pooled } rfl
  obtain ⟨h4, h5, h6, _⟩ := h3 (some { active := 0 }) (some 0) (some 0) openedWorld.store rfl
  exact ⟨r, w', h1, h4, h5, h6, h2⟩

theorem WithTx_binds_session_witness :
    ∃ p w', adapter.WithTx specEntdb 0 none (some (sessionDriver 0)) openedWorld = some (p, w') ∧
      w'.deref p = some { db := some (StorageClient.session 0) } ∧
      w'.store = openedWorld.store := by
  obtain ⟨p, w', h1, h2, h3, _⟩ :=
    WithTx_binds_session specEntdb 0 none (sessionDriver 0) 0 openedWorld rfl
  exact ⟨p, w', h1, h2, h3⟩

theorem adapter_db_immutable_witness :
    ∃ p w', adapter.WithTx specEntdb 0 none (some (sessionDriver 0)) openedWorld = some (p, w') ∧
      p ≠ 0 ∧ openedWorld.deref p = none ∧
      w'.deref p = some { db := some (StorageClient.session 0) } ∧
      w'.heap = [{ db := some StorageClient.pooled }, { db := some (StorageClient.session 0) }] ∧
      w'.deref 0 = some { db := some StorageClient.pooled } := by
  obtain ⟨p, w', h1, h2, h3, h4, h5, h6⟩ :=
    (adapter_db_immutable specEntdb 0 { db := some StorageClient.pooled } openedWorld rfl).1
      0 none (sessionDriver 0) 0 rfl
  exact ⟨p, w', h1, h2, h3, h4, h5, h6⟩

theorem Tx_no_nested_detection_witness :
    ∃ r w', adapter.Tx specEntdb 0 none (bootWorld 2) = some (r, w') ∧
      ∃ r2 w2, adapter.Tx specEntdb 0 r.ctx w' = some (r2, w2) ∧
        (w2.calls.filter Call.isHijackTx).length = 2 := by
  obtain ⟨r, w', h1, _, _, _, _, _, r2, w2, h2, _, h3, _⟩ :=
    Tx_no_nested_detection specEntdb 0 none (bootWorld 2) { db := some StorageClient.pooled } rfl
  exact ⟨r, w', h1, r2, w2, h2, h3⟩

theorem Tx_then_WithTx_witness :
    ∃ d w1, adapter.Tx specEntdb 0 none (bootWorld 1) =
        some ({ ctx := some { active := 0 }, driver := some d, err := none }, w1) ∧
      ∃ p w2, adapter.WithTx specEntdb 0 none (some d) w1 = some (p, w2) ∧
        w2.deref p = some { db := some (StorageClient.session 0) } := by
  obtain ⟨d, w1, h1, _, _, p, w2, h2, h3, _⟩ :=
    Tx_then_WithTx specEntdb 0 0 none none (bootWorld 1) { db := some StorageClient.pooled }
      (some { active := 0 }) 0 (some 0) openedWorld.store rfl rfl
  exact ⟨d, w1, h1, p, w2, h2, h3⟩

theorem driver_lifecycle_witness :
    adapter.Tx specEntdb 0 none (bootWorld 1) = some (openedRet, openedWorld) ∧
    (sessionDriver 0).state openedWorld.store = some DriverState.Open ∧
    ∃ s', (sessionDriver 0).Rollback openedWorld.store = some (none, s') ∧
      (sessionDriver 0).state s' = some DriverState.RolledBack :=
  ⟨rfl, (driver_lifecycle 0 none (bootWorld 1) openedWorld openedRet (sessionDriver 0) rfl rfl).1,
    ((driver_lifecycle 0 none (bootWorld 1) openedWorld openedRet (sessionDriver 0) rfl rfl).2.1
      openedWorld.store rfl).2⟩

theorem sibling_writes_atomic_witness :
    adapter.Tx specEntdb 0 none (bootWorld 1) = some (openedRet, openedWorld) ∧
    wellFormed workflow 0 = true ∧
    ∃ wn sibs, runSiblings (sessionDriver 0) workflow (openedWorld, []) = some (wn, sibs) ∧
      (∃ s', (sessionDriver 0).Rollback wn.store = some (none, s') ∧ s'.persisted = [7]) ∧
      (∃ s', (sessionDriver 0).Commit wn.store = some (none, s') ∧
        s'.persisted = [7, 11, 12, 13]) := by
  obtain ⟨wn, sibs, h1, _, ⟨s1, h2, h3, _⟩, ⟨s2, h4, h5, _⟩⟩ :=
    sibling_writes_atomic 0 none (bootWorld 1) openedWorld openedRet (sessionDriver 0)
      workflow rfl rfl rfl
  exact ⟨rfl, rfl, wn, sibs, h1, ⟨s1, h2, h3⟩, ⟨s2, h4, h5⟩⟩

end OpenMeter
